import Mathlib

/-!
# Verification of the mpids MPInumpy core (row-block distribution engine)

Shallow embedding of the partition planner, the global-to-local index
translator, the result-normalization helper, the distribution-token
grammar, and the collective reduction / gather engines of
`mpids/MPInumpy/utils.py` and `mpids/MPInumpy/distributions/RowBlock.py`.

Python machine-free integers are embedded as `Int` (or `Nat` where the
quantity is provably non-negative in every reachable call), raised
exceptions as `Except`, and the SPMD collective calls (`Allreduce`,
`Exscan`, `Allgather`, `Allgatherv`) as pure functions over the list of
all ranks' local values, in rank order.
-/

namespace Mpids

/-! ## Partition planner: `utils.get_block_index` -/

/-- Embedding of `utils.get_block_index(axis_len, axis_size, axis_coord)`
(utils.py lines 179-208).  All three arguments are non-negative in every
call (lengths, process counts, cartesian coordinates), so `Nat` is exact;
in the `else` branch `axis_coord ≥ axis_rem`, so truncated subtraction
agrees with Python's subtraction. -/
def get_block_index (axis_len axis_size axis_coord : Nat) : Nat × Nat :=
  let axis_num := axis_len / axis_size
  let axis_rem := axis_len % axis_size
  if axis_coord < axis_rem then
    let local_len := axis_num + 1
    let start_index := axis_coord * local_len
    (start_index, start_index + local_len)
  else
    let local_len := axis_num
    let start_index := axis_rem * (axis_num + 1) + (axis_coord - axis_rem) * axis_num
    (start_index, start_index + local_len)

/-- The spec's `block_range(axis_length, axis_processes, axis_coord)`
formula, transcribed from the spec's words (§4.1): let
`q = axis_length // axis_processes`, `r = axis_length % axis_processes`;
if `axis_coord < r` the block length is `q+1` and the start is
`axis_coord*(q+1)`; otherwise the length is `q` and the start is
`r*(q+1) + (axis_coord-r)*q`; end = start + length. -/
def block_range (axis_length axis_processes axis_coord : Nat) : Nat × Nat :=
  let q := axis_length / axis_processes
  let r := axis_length % axis_processes
  if axis_coord < r then
    (axis_coord * (q + 1), axis_coord * (q + 1) + (q + 1))
  else
    (r * (q + 1) + (axis_coord - r) * q,
     r * (q + 1) + (axis_coord - r) * q + q)

lemma get_block_index_fst (L P c : Nat) :
    (get_block_index L P c).1 = c * (L / P) + min c (L % P) := by
  unfold get_block_index
  by_cases h : c < L % P
  · simp only [h, if_true]
    rw [Nat.min_eq_left (Nat.le_of_lt h)]
    ring
  · simp only [h, if_false]
    rw [Nat.min_eq_right (Nat.le_of_not_lt h)]
    obtain ⟨d, rfl⟩ : ∃ d, c = L % P + d :=
      ⟨c - L % P, by omega⟩
    have : L % P + d - L % P = d := by omega
    rw [this]
    ring

lemma get_block_index_snd (L P c : Nat) :
    (get_block_index L P c).2 = (c + 1) * (L / P) + min (c + 1) (L % P) := by
  unfold get_block_index
  by_cases h : c < L % P
  · simp only [h, if_true]
    rw [Nat.min_eq_left (by omega)]
    ring
  · simp only [h, if_false]
    rw [Nat.min_eq_right (by omega)]
    obtain ⟨d, rfl⟩ : ∃ d, c = L % P + d :=
      ⟨c - L % P, by omega⟩
    have : L % P + d - L % P = d := by omega
    rw [this]
    ring

lemma get_block_index_contiguous (L P c : Nat) :
    (get_block_index L P c).2 = (get_block_index L P (c + 1)).1 := by
  rw [get_block_index_snd, get_block_index_fst]

lemma get_block_index_fst_mono (L P : Nat) {c c' : Nat} (h : c ≤ c') :
    (get_block_index L P c).1 ≤ (get_block_index L P c').1 := by
  rw [get_block_index_fst, get_block_index_fst]
  have h1 : c * (L / P) ≤ c' * (L / P) := Nat.mul_le_mul_right _ h
  have h2 : min c (L % P) ≤ min c' (L % P) := by omega
  omega

lemma get_block_index_fst_zero (L P : Nat) :
    (get_block_index L P 0).1 = 0 := by
  rw [get_block_index_fst]; simp

lemma get_block_index_fst_top (L P : Nat) (hP : 1 ≤ P) :
    (get_block_index L P P).1 = L := by
  rw [get_block_index_fst]
  have hr : L % P < P := Nat.mod_lt _ hP
  rw [min_eq_right (Nat.le_of_lt hr)]
  exact Nat.div_add_mod L P

lemma get_block_index_exists_block (L P : Nat) :
    ∀ (m x : Nat), x < (get_block_index L P m).1 →
      ∃ c, c < m ∧ (get_block_index L P c).1 ≤ x ∧
        x < (get_block_index L P (c + 1)).1 := by
  intro m
  induction m with
  | zero =>
      intro x hx
      rw [get_block_index_fst_zero] at hx
      omega
  | succ n ih =>
      intro x hx
      by_cases h : (get_block_index L P n).1 ≤ x
      · exact ⟨n, Nat.lt_succ_self n, h, hx⟩
      · obtain ⟨c, hc, h1, h2⟩ := ih x (Nat.lt_of_not_le h)
        exact ⟨c, Nat.lt_succ_of_lt hc, h1, h2⟩

/-- C1: for every global axis length `L ≥ 0` and process count `P ≥ 1`,
the ranges returned by `get_block_index L P c` for `c = 0 .. P-1` are
contiguous in coordinate order (each block's end equals the next block's
start), pairwise non-overlapping, and their union is exactly the
half-open interval `[0, L)`. -/
theorem get_block_index_partition (L P : Nat) (hP : 1 ≤ P) :
    (∀ c, c + 1 < P →
      (get_block_index L P c).2 = (get_block_index L P (c + 1)).1) ∧
    (∀ c₁ c₂ x, c₁ < P → c₂ < P → c₁ ≠ c₂ →
      ¬((get_block_index L P c₁).1 ≤ x ∧ x < (get_block_index L P c₁).2 ∧
        (get_block_index L P c₂).1 ≤ x ∧ x < (get_block_index L P c₂).2)) ∧
    (∀ x, x < L ↔ ∃ c, c < P ∧ (get_block_index L P c).1 ≤ x ∧
      x < (get_block_index L P c).2) := by
  have key : ∀ c₁ c₂ x, c₁ < c₂ →
      (get_block_index L P c₁).1 ≤ x → x < (get_block_index L P c₁).2 →
      (get_block_index L P c₂).1 ≤ x → x < (get_block_index L P c₂).2 →
      False := by
    intro c₁ c₂ x h12 _ hx2 hx3 _
    rw [get_block_index_contiguous] at hx2
    have : (get_block_index L P (c₁ + 1)).1 ≤ (get_block_index L P c₂).1 :=
      get_block_index_fst_mono L P h12
    omega
  refine ⟨fun c _ => get_block_index_contiguous L P c, ?_, ?_⟩
  · intro c₁ c₂ x _ _ hne ⟨ha, hb, hc, hd⟩
    rcases Nat.lt_or_ge c₁ c₂ with h | h
    · exact key c₁ c₂ x h ha hb hc hd
    · exact key c₂ c₁ x (Nat.lt_of_le_of_ne h (fun e => hne e.symm)) hc hd ha hb
  · intro x
    constructor
    · intro hx
      have hx' : x < (get_block_index L P P).1 := by
        rw [get_block_index_fst_top L P hP]; exact hx
      obtain ⟨c, hc, h1, h2⟩ := get_block_index_exists_block L P P x hx'
      exact ⟨c, hc, h1, by rw [get_block_index_contiguous]; exact h2⟩
    · intro ⟨c, hc, _, h2⟩
      have h3 : (get_block_index L P (c + 1)).1 ≤ (get_block_index L P P).1 :=
        get_block_index_fst_mono L P hc
      rw [get_block_index_contiguous] at h2
      rw [get_block_index_fst_top L P hP] at h3
      omega

/-- Witness for C1 at `L = 5`, `P = 3` (the spec's scenario). -/
theorem get_block_index_partition_witness :
    (∀ c, c + 1 < 3 →
      (get_block_index 5 3 c).2 = (get_block_index 5 3 (c + 1)).1) ∧
    (∀ c₁ c₂ x, c₁ < 3 → c₂ < 3 → c₁ ≠ c₂ →
      ¬((get_block_index 5 3 c₁).1 ≤ x ∧ x < (get_block_index 5 3 c₁).2 ∧
        (get_block_index 5 3 c₂).1 ≤ x ∧ x < (get_block_index 5 3 c₂).2)) ∧
    (∀ x, x < 5 ↔ ∃ c, c < 3 ∧ (get_block_index 5 3 c).1 ≤ x ∧
      x < (get_block_index 5 3 c).2) :=
  get_block_index_partition 5 3 (by decide)

/-- C2: `get_block_index` returns exactly the pair given by the spec's
`block_range` formula, and on the spec's scenario (global shape `(5,4)`
over 3 processes) the row boundaries are `(0,2)`, `(2,4)`, `(4,5)`. -/
theorem get_block_index_matches_block_range :
    (∀ L P c, 1 ≤ P → get_block_index L P c = block_range L P c) ∧
    get_block_index 5 3 0 = (0, 2) ∧
    get_block_index 5 3 1 = (2, 4) ∧
    get_block_index 5 3 2 = (4, 5) := by
  refine ⟨fun L P c _ => ?_, by decide, by decide, by decide⟩
  unfold get_block_index block_range
  by_cases h : c < L % P <;> simp [h]

/-- Witness for C2's quantified part at `L = 7`, `P = 3`, `c = 2`. -/
theorem get_block_index_matches_block_range_witness :
    get_block_index 7 3 2 = block_range 7 3 2 :=
  get_block_index_matches_block_range.1 7 3 2 (by decide)

/-! ## Distribution tokens: `utils.is_undistributed`,
`utils.is_row_block_distributed`, `utils.distribution_to_dimensions`,
`utils.get_comm_dims` -/

/-- A Python distribution token: either a string (list of characters) or
a list/tuple of strings, as accepted by the `dist` parameters of
utils.py. -/
inductive Distribution
  | str (s : List Char)
  | seq (l : List (List Char))
deriving DecidableEq

/-- Python exceptions raised by the embedded code. -/
inductive PyErr
  /-- Raised `mpids.MPInumpy.errors.IndexError` -/
  | indexError
  /-- Python builtin `ValueError` (zero slice step) -/
  | valueError
  /-- Raised `mpids.MPInumpy.errors.NotSupportedError` -/
  | notSupported
  /-- Raised `mpids.MPInumpy.errors.InvalidDistributionError`, carrying the
  offending token named in its message -/
  | invalidDistribution (d : Distribution)
  /-- Python builtin `IndexError` (sequence index out of range) -/
  | builtinIndexError
  /-- Python builtin `UnboundLocalError` -/
  | unboundLocal
deriving DecidableEq

/-- Embedding of `utils.is_undistributed(distribution)` (utils.py lines
377-393): Python's `distribution == 'u'`, which is `True` exactly for
the one-character string `'u'` (a list or tuple never equals a string). -/
def is_undistributed (distribution : Distribution) : Bool :=
  decide (distribution = .str ['u'])

/-- Embedding of `utils.is_row_block_distributed(distribution)` (utils.py
lines 396-412): Python's `distribution[0] == 'b' and len(distribution) == 1`.
Indexing `distribution[0]` raises a builtin `IndexError` on an empty
string or sequence; for a string the element is the first character, for
a list/tuple it is the first string. -/
def is_row_block_distributed (distribution : Distribution) : Except PyErr Bool :=
  match distribution with
  | .str [] => .error .builtinIndexError
  | .str (c :: cs) => .ok (decide (c = 'b') && decide ((c :: cs).length = 1))
  | .seq [] => .error .builtinIndexError
  | .seq (t :: ts) => .ok (decide (t = ['b']) && decide ((t :: ts).length = 1))

/-- Embedding of `utils.distribution_to_dimensions(distribution, procs)`
(utils.py lines 110-133): `1` for a row-block token, otherwise
`InvalidDistributionError` naming the token. -/
def distribution_to_dimensions (distribution : Distribution) (_procs : Nat) :
    Except PyErr Nat :=
  match is_row_block_distributed distribution with
  | .error e => .error e
  | .ok true => .ok 1
  | .ok false => .error (.invalidDistribution distribution)

/-- Modelled from MPI semantics for the only seed value the code passes:
`MPI.Compute_dims(procs, 1)` yields the one-dimensional grid `[procs]`. -/
def compute_dims (procs : Nat) (_dimensions : Nat) : List Nat :=
  [procs]

/-- Embedding of `utils.get_comm_dims(procs, dist)` (utils.py lines
243-265): `None` for the undistributed token, otherwise
`MPI.Compute_dims(procs, distribution_to_dimensions(dist, procs))`. -/
def get_comm_dims (procs : Nat) (dist : Distribution) :
    Except PyErr (Option (List Nat)) :=
  if is_undistributed dist then .ok none
  else
    match distribution_to_dimensions dist procs with
    | .error e => .error e
    | .ok dims => .ok (some (compute_dims procs dims))

/-- A distribution token is nonempty as a Python sequence (`len(d) > 0`). -/
def distNonempty : Distribution → Bool
  | .str s => !s.isEmpty
  | .seq l => !l.isEmpty

/-- Counterexample to C6: the singleton per-axis sequence `('b',)` is a
token distinct from both `'b'` and `'u'`, yet the planner accepts it
(row-block), contradicting "any other token fails with the
distribution-configuration error". -/
theorem dist_singleton_seq_b_accepted :
    get_comm_dims 3 (.seq [['b']]) = .ok (some [3]) ∧
    Distribution.seq [['b']] ≠ .str ['b'] ∧
    Distribution.seq [['b']] ≠ .str ['u'] :=
  ⟨rfl, by decide, by decide⟩

/-- C6 (amended): the planner accepts exactly the string token `'b'`,
the string token `'u'`, and the singleton sequence `('b',)`/`['b']`
(treated as row-block); every other nonempty token fails with
`InvalidDistributionError` naming the offending token, while an empty
token fails with a builtin `IndexError` instead. -/
theorem distribution_token_grammar (d : Distribution) (p : Nat) :
    (get_comm_dims p d = .ok none ↔ d = .str ['u']) ∧
    ((∃ m, get_comm_dims p d = .ok (some m)) ↔
      (d = .str ['b'] ∨ d = .seq [['b']])) ∧
    (d ≠ .str ['u'] → d ≠ .str ['b'] → d ≠ .seq [['b']] →
      (distNonempty d = true →
        get_comm_dims p d = .error (.invalidDistribution d)) ∧
      (distNonempty d = false →
        get_comm_dims p d = .error .builtinIndexError)) := by
  rcases d with s | l
  · rcases s with _ | ⟨c, _ | ⟨c2, cs2⟩⟩
    · simp [get_comm_dims, is_undistributed, distribution_to_dimensions,
            is_row_block_distributed, distNonempty]
    · by_cases hu : c = 'u'
      · subst hu
        simp [get_comm_dims, is_undistributed, distNonempty]
      · by_cases hb : c = 'b'
        · subst hb
          simp [get_comm_dims, is_undistributed, distribution_to_dimensions,
                is_row_block_distributed, compute_dims, distNonempty]
        · simp [get_comm_dims, is_undistributed, distribution_to_dimensions,
                is_row_block_distributed, distNonempty, hu, hb]
    · simp [get_comm_dims, is_undistributed, distribution_to_dimensions,
            is_row_block_distributed, distNonempty]
  · rcases l with _ | ⟨t, _ | ⟨t2, ts2⟩⟩
    · simp [get_comm_dims, is_undistributed, distribution_to_dimensions,
            is_row_block_distributed, distNonempty]
    · by_cases hb : t = ['b']
      · subst hb
        simp [get_comm_dims, is_undistributed, distribution_to_dimensions,
              is_row_block_distributed, compute_dims, distNonempty]
      · simp [get_comm_dims, is_undistributed, distribution_to_dimensions,
              is_row_block_distributed, distNonempty, hb]
    · simp [get_comm_dims, is_undistributed, distribution_to_dimensions,
            is_row_block_distributed, distNonempty]

/-- Witness for C6's amended theorem at the rejected token `('b','b')`:
it fails with `InvalidDistributionError` naming the token. -/
theorem distribution_token_grammar_witness :
    get_comm_dims 4 (.seq [['b'], ['b']]) =
      .error (.invalidDistribution (.seq [['b'], ['b']])) :=
  (((distribution_token_grammar (.seq [['b'], ['b']]) 4).2.2
    (by decide) (by decide) (by decide)).1 (by decide))

/-! ## Index translator: `utils.global_to_local_key` and helpers -/

/-- A Python `slice` object: each of start/stop/step may be `None`. -/
structure PySlice where
  start : Option Int
  stop : Option Int
  step : Option Int
deriving DecidableEq

/-- A global selection key: int, slice, tuple of keys, or anything else
(`other`, e.g. a string or `None`), mirroring the runtime type dispatch
in `utils.global_to_local_key`. -/
inductive PyKey
  | int (i : Int)
  | slice (s : PySlice)
  | tup (elems : List PyKey)
  | other

/-- A process-local selection key as produced by the translator. -/
inductive LocalKey
  | int (i : Int)
  | slice (s : PySlice)
  | tup (elems : List LocalKey)

/-- CPython's `slice.indices(length)` normalization: default the step to
1 (a zero step raises `ValueError`), clamp a present start/stop into the
valid range after adding `length` to negative values, and default a
missing start/stop to the extremes for the step's direction. -/
def sliceIndices (s : PySlice) (length : Nat) : Except PyErr (Int × Int × Int) :=
  let step : Int := s.step.getD 1
  if step = 0 then .error .valueError
  else
    let n : Int := length
    let lower : Int := if step < 0 then -1 else 0
    let upper : Int := if step < 0 then n - 1 else n
    let start : Int :=
      match s.start with
      | none => if step < 0 then upper else lower
      | some v => if v < 0 then max (v + n) lower else min v upper
    let stop : Int :=
      match s.stop with
      | none => if step < 0 then lower else upper
      | some v => if v < 0 then max (v + n) lower else min v upper
    .ok (start, stop, step)

/-- Embedding of `utils._global_to_local_key_int(global_key, globalshape,
local_to_global_dict, axis)` (utils.py lines 308-327).  The
local-to-global dictionary is embedded as an optional total map from
axis to `(start, end)`; callers always populate every axis.  The
rebinding of `global_key` mirrors Python's in-place normalization. -/
def _global_to_local_key_int (global_key : Int) (globalshape : List Nat)
    (local_to_global_dict : Option (Nat → Int × Int)) (axis : Nat) :
    Except PyErr LocalKey :=
  let length : Int := (globalshape.getD axis 0 : Nat)
  let global_key := if global_key < 0 then global_key + length else global_key
  if global_key < 0 ∨ global_key ≥ length then .error .indexError
  else
    match local_to_global_dict with
    | none => .ok (.int global_key)
    | some dict =>
      let (global_min, global_max) := dict axis
      if global_min ≤ global_key ∧ global_key < global_max then
        .ok (.int (global_key - global_min))
      else
        .ok (.slice ⟨some 0, some 0, none⟩)

/-- Embedding of `utils._global_to_local_key_slice(global_key,
globalshape, local_to_global_dict, axis)` (utils.py lines 330-352).
The source's post-`indices` `None` guards on start/stop are dead code
(`slice.indices` always returns ints) and leave the values unchanged. -/
def _global_to_local_key_slice (global_key : PySlice) (globalshape : List Nat)
    (local_to_global_dict : Option (Nat → Int × Int)) (axis : Nat) :
    Except PyErr LocalKey :=
  if global_key = ⟨none, none, none⟩ then .ok (.slice global_key)
  else
    match local_to_global_dict with
    | none => .ok (.slice global_key)
    | some dict =>
      match sliceIndices global_key (globalshape.getD axis 0) with
      | .error e => .error e
      | .ok (global_start, global_stop, global_step) =>
        let (global_min, _global_max) := dict axis
        let local_start := global_start - global_min
        let local_stop := global_stop - global_min
        .ok (.slice ⟨some local_start, some local_stop, some global_step⟩)

/-- The `for axis, dim_key in enumerate(global_key)` loop body of
`utils._global_to_local_key_tuple` (utils.py lines 361-372): int and
slice elements are translated at their tuple position's axis; an element
of any other type matches neither `isinstance` test and is skipped. -/
def _global_to_local_key_tuple_loop (elems : List PyKey)
    (globalshape : List Nat) (local_to_global_dict : Option (Nat → Int × Int))
    (axis : Nat) : Except PyErr (List LocalKey) :=
  match elems with
  | [] => .ok []
  | .int i :: rest =>
    match _global_to_local_key_int i globalshape local_to_global_dict axis with
    | .error e => .error e
    | .ok l =>
      match _global_to_local_key_tuple_loop rest globalshape
          local_to_global_dict (axis + 1) with
      | .error e => .error e
      | .ok ls => .ok (l :: ls)
  | .slice s :: rest =>
    match _global_to_local_key_slice s globalshape local_to_global_dict axis with
    | .error e => .error e
    | .ok l =>
      match _global_to_local_key_tuple_loop rest globalshape
          local_to_global_dict (axis + 1) with
      | .error e => .error e
      | .ok ls => .ok (l :: ls)
  | _ :: rest =>
    _global_to_local_key_tuple_loop rest globalshape local_to_global_dict
      (axis + 1)

/-- Embedding of `utils._global_to_local_key_tuple(global_key,
globalshape, local_to_global_dict)` (utils.py lines 355-374). -/
def _global_to_local_key_tuple (elems : List PyKey) (globalshape : List Nat)
    (local_to_global_dict : Option (Nat → Int × Int)) :
    Except PyErr (List LocalKey) :=
  if elems.length > globalshape.length then .error .indexError
  else _global_to_local_key_tuple_loop elems globalshape local_to_global_dict 0

/-- Embedding of `utils.global_to_local_key(global_key, globalshape,
local_to_global_dict)` (utils.py lines 268-305): dispatch on the key's
runtime type; an unsupported type raises `NotSupportedError`. -/
def global_to_local_key (global_key : PyKey) (globalshape : List Nat)
    (local_to_global_dict : Option (Nat → Int × Int)) :
    Except PyErr LocalKey :=
  match global_key with
  | .int i => _global_to_local_key_int i globalshape local_to_global_dict 0
  | .slice s => _global_to_local_key_slice s globalshape local_to_global_dict 0
  | .tup elems =>
    match _global_to_local_key_tuple elems globalshape local_to_global_dict with
    | .error e => .error e
    | .ok ls => .ok (.tup ls)
  | .other => .error .notSupported

/-- C3: an integer key `k` on an axis of global length `n` is normalized
by adding `n` exactly once when negative; a normalized value outside
`[0, n)` raises the out-of-bounds `IndexError`; otherwise, on a
partitioned axis with local range `[local_min, local_max)`, a value
inside the range maps to `value - local_min` and a value outside maps to
the empty-range key `slice(0, 0)`, without raising. -/
theorem int_key_translation (k : Int) (shape : List Nat)
    (dfun : Nat → Int × Int) (axis : Nat) (n k' : Int)
    (hn : n = (shape.getD axis 0 : Nat))
    (hk : k' = if k < 0 then k + n else k) :
    ((k' < 0 ∨ n ≤ k') →
      _global_to_local_key_int k shape (some dfun) axis = .error .indexError) ∧
    (0 ≤ k' → k' < n →
      (((dfun axis).1 ≤ k' ∧ k' < (dfun axis).2) →
        _global_to_local_key_int k shape (some dfun) axis =
          .ok (.int (k' - (dfun axis).1))) ∧
      (¬((dfun axis).1 ≤ k' ∧ k' < (dfun axis).2) →
        _global_to_local_key_int k shape (some dfun) axis =
          .ok (.slice ⟨some 0, some 0, none⟩))) := by
  subst hn; subst hk
  rcases hd : dfun axis with ⟨gmin, gmax⟩
  simp only [_global_to_local_key_int, hd]
  by_cases hneg : k < 0
  · rw [if_pos hneg]
    refine ⟨fun h => ?_, fun h0 h1 => ⟨fun hin => ?_, fun hout => ?_⟩⟩
    · rw [if_pos (by omega)]
    · rw [if_neg (by omega), if_pos hin]
    · rw [if_neg (by omega), if_neg hout]
  · rw [if_neg hneg]
    refine ⟨fun h => ?_, fun h0 h1 => ⟨fun hin => ?_, fun hout => ?_⟩⟩
    · rw [if_pos (by omega)]
    · rw [if_neg (by omega), if_pos hin]
    · rw [if_neg (by omega), if_neg hout]

/-- Witness for C3 at `k = -1`, global axis length 5, local range
`[2, 4)`: the normalized value 4 is in bounds but not local, so the
translation yields the select-nothing key `slice(0, 0)`. -/
theorem int_key_translation_witness :
    _global_to_local_key_int (-1) [5] (some fun _ => (2, 4)) 0 =
      .ok (.slice ⟨some 0, some 0, none⟩) :=
  ((int_key_translation (-1) [5] (fun _ => (2, 4)) 0 5 4 (by decide)
    (by decide)).2 (by decide) (by decide)).2 (by decide)

/-- C5: on a partitioned axis, the unrestricted full-range slice passes
through unchanged; any other slice is resolved against the global axis
length by standard slice normalization and only its start and stop are
shifted down by the local range's start, the step being exactly the
normalized global step. -/
theorem slice_key_rebias (s : PySlice) (shape : List Nat)
    (dfun : Nat → Int × Int) (axis : Nat)
    (hne : s ≠ ⟨none, none, none⟩) (a b st : Int)
    (hidx : sliceIndices s (shape.getD axis 0) = .ok (a, b, st)) :
    _global_to_local_key_slice s shape (some dfun) axis =
      .ok (.slice ⟨some (a - (dfun axis).1), some (b - (dfun axis).1),
        some st⟩) ∧
    _global_to_local_key_slice ⟨none, none, none⟩ shape (some dfun) axis =
      .ok (.slice ⟨none, none, none⟩) := by
  rcases hd : dfun axis with ⟨gmin, gmax⟩
  constructor
  · simp only [_global_to_local_key_slice, if_neg hne, hidx, hd]
  · simp [_global_to_local_key_slice]

/-- Witness for C5 at slice `1:3` on a length-5 axis with local range
`[1, 3)`: the local key is `slice(0, 2, 1)`. -/
theorem slice_key_rebias_witness :
    _global_to_local_key_slice ⟨some 1, some 3, none⟩ [5]
        (some fun _ => (1, 3)) 0 =
      .ok (.slice ⟨some 0, some 2, some 1⟩) ∧
    _global_to_local_key_slice ⟨none, none, none⟩ [5]
        (some fun _ => (1, 3)) 0 =
      .ok (.slice ⟨none, none, none⟩) :=
  slice_key_rebias ⟨some 1, some 3, none⟩ [5] (fun _ => (1, 3)) 0
    (by decide) 1 3 1 rfl

/-- C8: whether the integer-key translation raises is a function of the
key and the global shape alone — for any two local partition maps
(including `None`) the translation errors on one iff it errors on the
other, and in particular raises the out-of-bounds `IndexError` on one
iff it does on the other. -/
theorem int_key_verdict_uniform (k : Int) (shape : List Nat) (axis : Nat)
    (d1 d2 : Option (Nat → Int × Int)) :
    ((∃ e, _global_to_local_key_int k shape d1 axis = .error e) ↔
     (∃ e, _global_to_local_key_int k shape d2 axis = .error e)) ∧
    (_global_to_local_key_int k shape d1 axis = .error .indexError ↔
     _global_to_local_key_int k shape d2 axis = .error .indexError) := by
  have key : ∀ (d : Option (Nat → Int × Int)) (e : PyErr),
      _global_to_local_key_int k shape d axis = .error e ↔
      (e = .indexError ∧
        ((if k < 0 then k + ((shape.getD axis 0 : Nat) : Int) else k) < 0 ∨
         (if k < 0 then k + ((shape.getD axis 0 : Nat) : Int) else k) ≥
           ((shape.getD axis 0 : Nat) : Int))) := by
    intro d e
    simp only [_global_to_local_key_int]
    by_cases hneg : k < 0
    · rw [if_pos hneg]
      by_cases h1 : k + ((shape.getD axis 0 : Nat) : Int) < 0 ∨
          k + ((shape.getD axis 0 : Nat) : Int) ≥ ((shape.getD axis 0 : Nat) : Int)
      · rw [if_pos h1]
        exact ⟨fun he => ⟨by injection he with h; exact h.symm, h1⟩,
               fun ⟨he, _⟩ => by rw [he]⟩
      · rw [if_neg h1]
        cases d with
        | none =>
            exact ⟨fun he => absurd he (by simp),
                   fun ⟨_, hcond⟩ => absurd hcond h1⟩
        | some dfun =>
            rcases hd : dfun axis with ⟨gmin, gmax⟩
            simp only [hd]
            split_ifs with h2 <;>
              exact ⟨fun he => absurd he (by simp),
                     fun ⟨_, hcond⟩ => absurd hcond h1⟩
    · rw [if_neg hneg]
      by_cases h1 : k < 0 ∨ k ≥ ((shape.getD axis 0 : Nat) : Int)
      · rw [if_pos h1]
        exact ⟨fun he => ⟨by injection he with h; exact h.symm, h1⟩,
               fun ⟨he, _⟩ => by rw [he]⟩
      · rw [if_neg h1]
        cases d with
        | none =>
            exact ⟨fun he => absurd he (by simp),
                   fun ⟨_, hcond⟩ => absurd hcond h1⟩
        | some dfun =>
            rcases hd : dfun axis with ⟨gmin, gmax⟩
            simp only [hd]
            split_ifs with h2 <;>
              exact ⟨fun he => absurd he (by simp),
                     fun ⟨_, hcond⟩ => absurd hcond h1⟩
  refine ⟨⟨fun ⟨e, he⟩ => ⟨e, (key d2 e).mpr ((key d1 e).mp he)⟩,
           fun ⟨e, he⟩ => ⟨e, (key d1 e).mpr ((key d2 e).mp he)⟩⟩,
          ⟨fun he => (key d2 _).mpr ((key d1 _).mp he),
           fun he => (key d1 _).mpr ((key d2 _).mp he)⟩⟩

/-- An element of a tuple key that the source's `isinstance` dispatch
recognises: an int or a slice.  Anything else is skipped by the loop. -/
def isIntOrSliceKey : PyKey → Bool
  | .int _ => true
  | .slice _ => true
  | _ => false

lemma tuple_loop_ok_length (shape : List Nat)
    (d : Option (Nat → Int × Int)) :
    ∀ (elems : List PyKey) (axis : Nat) (r : List LocalKey),
      _global_to_local_key_tuple_loop elems shape d axis = .ok r →
      r.length = (elems.filter isIntOrSliceKey).length := by
  intro elems
  induction elems with
  | nil =>
      intro axis r h
      simp only [_global_to_local_key_tuple_loop, Except.ok.injEq] at h
      subst h
      rfl
  | cons e rest ih =>
      intro axis r h
      cases e with
      | int i =>
          simp only [_global_to_local_key_tuple_loop] at h
          cases hi : _global_to_local_key_int i shape d axis with
          | error e' => rw [hi] at h; exact absurd h (by simp)
          | ok l =>
              rw [hi] at h
              cases hrest : _global_to_local_key_tuple_loop rest shape d
                  (axis + 1) with
              | error e' => rw [hrest] at h; exact absurd h (by simp)
              | ok ls =>
                  rw [hrest] at h
                  simp only [Except.ok.injEq] at h
                  subst h
                  simp [List.filter, isIntOrSliceKey, ih _ _ hrest]
      | slice s =>
          simp only [_global_to_local_key_tuple_loop] at h
          cases hi : _global_to_local_key_slice s shape d axis with
          | error e' => rw [hi] at h; exact absurd h (by simp)
          | ok l =>
              rw [hi] at h
              cases hrest : _global_to_local_key_tuple_loop rest shape d
                  (axis + 1) with
              | error e' => rw [hrest] at h; exact absurd h (by simp)
              | ok ls =>
                  rw [hrest] at h
                  simp only [Except.ok.injEq] at h
                  subst h
                  simp [List.filter, isIntOrSliceKey, ih _ _ hrest]
      | tup es =>
          simp only [_global_to_local_key_tuple_loop] at h
          simpa [List.filter, isIntOrSliceKey] using ih _ _ h
      | other =>
          simp only [_global_to_local_key_tuple_loop] at h
          simpa [List.filter, isIntOrSliceKey] using ih _ _ h

lemma tuple_loop_all_unsupported (shape : List Nat)
    (d : Option (Nat → Int × Int)) :
    ∀ (elems : List PyKey) (axis : Nat),
      (∀ e ∈ elems, isIntOrSliceKey e = false) →
      _global_to_local_key_tuple_loop elems shape d axis = .ok [] := by
  intro elems
  induction elems with
  | nil => intro axis _; rfl
  | cons e rest ih =>
      intro axis hall
      have he := hall e (List.mem_cons_self e rest)
      have hrest : ∀ e' ∈ rest, isIntOrSliceKey e' = false :=
        fun e' h' => hall e' (List.mem_cons_of_mem e h')
      cases e with
      | int i => simp [isIntOrSliceKey] at he
      | slice s => simp [isIntOrSliceKey] at he
      | tup es =>
          simp only [_global_to_local_key_tuple_loop]
          exact ih _ hrest
      | other =>
          simp only [_global_to_local_key_tuple_loop]
          exact ih _ hrest

/-- C10: for a tuple key no longer than the array's dimensionality, any
element that is neither an int nor a slice is silently skipped: a
successful translation returns one local key per int-or-slice element
(so the local key is strictly shorter than the global key when such an
element is present), a tuple of only unsupported elements translates to
the empty tuple without raising, while a top-level key of unsupported
type raises `NotSupportedError`. -/
theorem tuple_key_skips_unsupported (elems : List PyKey) (shape : List Nat)
    (ltg : Option (Nat → Int × Int)) (h : elems.length ≤ shape.length) :
    (∀ r, _global_to_local_key_tuple elems shape ltg = .ok r →
      r.length = (elems.filter isIntOrSliceKey).length) ∧
    ((∃ e ∈ elems, isIntOrSliceKey e = false) →
      ∀ r, _global_to_local_key_tuple elems shape ltg = .ok r →
        r.length < elems.length) ∧
    ((∀ e ∈ elems, isIntOrSliceKey e = false) →
      _global_to_local_key_tuple elems shape ltg = .ok []) ∧
    global_to_local_key .other shape ltg = .error .notSupported := by
  unfold _global_to_local_key_tuple
  rw [if_neg (by omega)]
  refine ⟨fun r hr => tuple_loop_ok_length shape ltg elems 0 r hr,
          fun ⟨e, hmem, he⟩ r hr => ?_,
          fun hall => tuple_loop_all_unsupported shape ltg elems 0 hall,
          rfl⟩
  rw [tuple_loop_ok_length shape ltg elems 0 r hr]
  refine List.length_filter_lt_length_iff_exists.mpr ⟨e, hmem, ?_⟩
  simp [he]

/-- Witness for C10 at the tuple key `(0, junk)` on a 2-d shape with no
partitioning: the unsupported element is dropped and no error raised. -/
theorem tuple_key_skips_unsupported_witness :
    (∀ r, _global_to_local_key_tuple [.int 0, .other] [2, 2] none = .ok r →
      r.length = ([PyKey.int 0, PyKey.other].filter isIntOrSliceKey).length) ∧
    ((∃ e ∈ [PyKey.int 0, PyKey.other], isIntOrSliceKey e = false) →
      ∀ r, _global_to_local_key_tuple [.int 0, .other] [2, 2] none = .ok r →
        r.length < [PyKey.int 0, PyKey.other].length) ∧
    ((∀ e ∈ [PyKey.int 0, PyKey.other], isIntOrSliceKey e = false) →
      _global_to_local_key_tuple [.int 0, .other] [2, 2] none = .ok []) ∧
    global_to_local_key .other [2, 2] none = .error .notSupported :=
  tuple_key_skips_unsupported [.int 0, .other] [2, 2] none (by decide)

/-! ## Result normalization: `utils._format_indexed_result` -/

/-- Embedding of `utils._format_indexed_result(global_key, indexed_result)`
(utils.py lines 136-176), with the numpy array abstracted by its shape
(the function only inspects and rewrites shapes; reshapes of an empty
array stay empty).  A 0-d result is first wrapped into shape `[1]`
(`np.array([x])`); an empty result (`size == 0`) is then reshaped by key
kind: `reshape(0)` for an int key, `reshape([0]*ndim)` for a slice key,
and for a tuple key `reshape(0)` when all elements are ints, otherwise
`reshape([0]*ndim)`.  Any other key kind leaves the shape unchanged. -/
def _format_indexed_result (global_key : PyKey) (shape : List Nat) :
    List Nat :=
  let shape := if shape.length = 0 then [1] else shape
  if shape.prod = 0 then
    match global_key with
    | .int _ => [0]
    | .slice _ => List.replicate shape.length 0
    | .tup elems =>
      if elems.all (fun k => match k with | .int _ => true | _ => false) then
        [0]
      else
        List.replicate shape.length 0
    | .other => shape
  else shape

/-- C7: an empty indexed result (zero elements) is reshaped according to
the key kind — an integer key yields the rank-1 zero-length shape `[0]`,
while a slice key or a tuple key yields a result whose every dimension
has zero length (for a tuple of only ints this is the rank-1 `[0]`;
otherwise the rank is preserved with every extent zero). -/
theorem format_indexed_result_empty (shape : List Nat)
    (hempty : shape.prod = 0) (i : Int) (s : PySlice)
    (elems : List PyKey) :
    _format_indexed_result (.int i) shape = [0] ∧
    (∀ d ∈ _format_indexed_result (.slice s) shape, d = 0) ∧
    (∀ d ∈ _format_indexed_result (.tup elems) shape, d = 0) := by
  have hne : shape.length ≠ 0 := by
    intro h
    rw [List.length_eq_zero.mp h] at hempty
    simp at hempty
  refine ⟨?_, ?_, ?_⟩
  · simp only [_format_indexed_result, if_neg hne, if_pos hempty]
  · simp only [_format_indexed_result, if_neg hne, if_pos hempty]
    intro d hd
    exact List.eq_of_mem_replicate hd
  · simp only [_format_indexed_result, if_neg hne, if_pos hempty]
    split_ifs with hall
    · intro d hd
      simpa using List.mem_singleton.mp hd
    · intro d hd
      exact List.eq_of_mem_replicate hd

/-- Witness for C7 at the empty shape `[0, 3]`: an int key gives `[0]`,
a slice key gives `[0, 0]`, an all-int tuple key gives `[0]` — all with
every dimension zero-length. -/
theorem format_indexed_result_empty_witness :
    _format_indexed_result (.int 1) [0, 3] = [0] ∧
    (∀ d ∈ _format_indexed_result (.slice ⟨some 0, some 2, none⟩) [0, 3],
      d = 0) ∧
    (∀ d ∈ _format_indexed_result (.tup [.int 1, .int 2]) [0, 3], d = 0) :=
  format_indexed_result_empty [0, 3] (by decide) 1 ⟨some 0, some 2, none⟩
    [.int 1, .int 2]

/-! ## Collective reduction and gather engines:
`RowBlock.custom_reduction`, `RowBlock.collect_data`

The SPMD execution is modelled globally: every rank runs the identical
deterministic code and every collective is a pure function of the list
of all ranks' local buffers (in rank order), so one shared value stands
for the per-rank results, which are identical by construction. -/

/-- Model of `MPI_Exscan(op=SUM)` starting from a running total `acc`: each rank
receives the sum of the preceding ranks' contributions. -/
def exscanFrom (acc : Nat) (counts : List Nat) : List Nat :=
  match counts with
  | [] => []
  | c :: cs => acc :: exscanFrom (acc + c) cs

/-- Model of `MPI_Exscan(op=SUM)` across all ranks.  Rank 0's receive buffer is
left at its zero initialisation (`np.zeros(1)` in the source). -/
def exscan (counts : List Nat) : List Nat := exscanFrom 0 counts

/-- The displacement list the source builds: an exclusive scan of the
per-rank counts followed by the final conditioning `displacements[0] = 0`
(RowBlock.py lines 168-176 and 193-199). -/
def gatherDisplacements (counts : List Nat) : List Nat :=
  (exscan counts).set 0 0

/-- Writing a contribution into an output buffer starting at a given
position, one element at a time (out-of-range writes are dropped, as
`List.set` ignores them). -/
def writeAt (buf : List α) (pos : Nat) (data : List α) : List α :=
  match data with
  | [] => buf
  | x :: xs => writeAt (buf.set pos x) (pos + 1) xs

/-- Model of `MPI_Allgatherv`: each rank's buffer is written into the shared
output buffer at that rank's displacement. -/
def allgatherv (bufs : List (List α)) (displs : List Nat) (buf : List α) :
    List α :=
  match bufs, displs with
  | [], _ => buf
  | _ :: _, [] => buf
  | b :: bs, d :: ds => allgatherv bs ds (writeAt buf d b)

/-- Model of `MPI_Allreduce` with an element-wise operator: combine all ranks'
equal-length buffers pointwise. -/
def allreduceModel (op : Int → Int → Int) (locals : List (List Int)) :
    List Int :=
  match locals with
  | [] => []
  | l :: ls => ls.foldl (fun acc r => acc.zipWith op r) l

/-- The collective calls RowBlock's methods can issue, in program
order. -/
inductive Collective
  | exscanCall
  | allreduceCall
  | allgatherCall
  | allgathervCall
deriving DecidableEq

/-- Embedding of `RowBlock.custom_reduction(operation, local_red,
axis=None, dtype=None, out=None)` (RowBlock.py lines 153-182), returning
the result each rank observes together with the trace of collective
calls issued.  The two source `if`s are disjoint (`axis is None or
axis == 0` versus `axis == 1`); for any other axis neither branch
assigns `global_red`, so the trailing `return global_red` raises
`UnboundLocalError` with no collective issued.  The `out` parameter is
unused by the source and `dtype` only selects a numpy dtype, so both are
omitted from the embedding. -/
def customReduction (op : Int → Int → Int) (locals : List (List Int))
    (axis : Option Int) : Except PyErr (List Int) × List Collective :=
  if axis = none ∨ axis = some 0 then
    (.ok (allreduceModel op locals), [.allreduceCall])
  else if axis = some 1 then
    let counts := locals.map List.length
    let displacements := gatherDisplacements counts
    let total_count := counts.sum
    (.ok (allgatherv locals displacements (List.replicate total_count 0)),
     [.exscanCall, .allreduceCall, .allgatherCall, .allgatherCall,
      .allgathervCall])
  else
    (.error .unboundLocal, [])

/-- Embedding of `RowBlock.collect_data(self)` (RowBlock.py lines
185-207): gather every rank's flattened local buffer into a zero-filled
buffer of the global size at the exclusive-scan displacements. -/
def collect_data (locals : List (List Int)) : List Int :=
  let counts := locals.map List.length
  let displacements := gatherDisplacements counts
  allgatherv locals displacements (List.replicate counts.sum 0)

lemma set_length_append (u v : List α) (x y : α) :
    (u ++ y :: v).set u.length x = u ++ x :: v := by
  induction u with
  | nil => rfl
  | cons a u ih => exact congrArg (List.cons a) ih

lemma writeAt_append (b : List α) : ∀ (u v : List α), b.length ≤ v.length →
    writeAt (u ++ v) u.length b = u ++ b ++ v.drop b.length := by
  induction b with
  | nil => intro u v _; simp [writeAt]
  | cons x xs ih =>
      intro u v h
      cases v with
      | nil => simp at h
      | cons y v' =>
          show writeAt ((u ++ y :: v').set u.length x) (u.length + 1) xs = _
          rw [set_length_append]
          have h2 : xs.length ≤ v'.length := by
            simp only [List.length_cons] at h
            omega
          calc writeAt (u ++ x :: v') (u.length + 1) xs
              = writeAt ((u ++ [x]) ++ v') (u ++ [x]).length xs := by
                simp
            _ = (u ++ [x]) ++ xs ++ v'.drop xs.length := ih (u ++ [x]) v' h2
            _ = u ++ (x :: xs) ++ (y :: v').drop (x :: xs).length := by
                simp

lemma allgatherv_exscanFrom (bufs : List (List α)) :
    ∀ (u v : List α), (bufs.map List.length).sum ≤ v.length →
      allgatherv bufs (exscanFrom u.length (bufs.map List.length)) (u ++ v) =
        u ++ bufs.flatten ++ v.drop (bufs.map List.length).sum := by
  induction bufs with
  | nil => intro u v _; simp [allgatherv]
  | cons b bs ih =>
      intro u v h
      simp only [List.map_cons, List.sum_cons] at h
      show allgatherv bs (exscanFrom (u.length + b.length)
          (bs.map List.length)) (writeAt (u ++ v) u.length b) = _
      rw [writeAt_append b u v (by omega)]
      have h2 : (bs.map List.length).sum ≤ (v.drop b.length).length := by
        rw [List.length_drop]
        omega
      have key := ih (u ++ b) (v.drop b.length) h2
      rw [List.length_append] at key
      rw [key]
      simp [List.drop_drop, Nat.add_comm]

lemma gatherDisplacements_eq_exscanFrom (counts : List Nat) :
    gatherDisplacements counts = exscanFrom 0 counts := by
  unfold gatherDisplacements exscan
  cases counts with
  | nil => rfl
  | cons c cs => rfl

lemma exscanFrom_getD (cs : List Nat) :
    ∀ (a i : Nat), i < cs.length →
      (exscanFrom a cs).getD i 0 = a + (cs.take i).sum := by
  induction cs with
  | nil => intro a i h; simp at h
  | cons c cs ih =>
      intro a i h
      cases i with
      | zero => simp [exscanFrom]
      | succ n =>
          show (exscanFrom (a + c) cs).getD n 0 = _
          rw [ih (a + c) n (by simpa using h)]
          simp only [List.take_succ_cons, List.sum_cons]
          omega

/-- C4: in the gather engine and the non-partitioned-axis (`axis=1`)
reduction path, rank `i`'s displacement equals the sum of the counts of
ranks `0..i-1` (exclusive prefix sum, rank 0's displacement 0), and the
all-gather-with-variable-counts places each rank's contribution at its
displacement, producing the concatenation of all contributions in rank
order in the shared output buffer (identical on every process by the
SPMD model's construction). -/
theorem gather_rank_order (op : Int → Int → Int)
    (locals : List (List Int)) :
    (∀ i, i < locals.length →
      (gatherDisplacements (locals.map List.length)).getD i 0 =
        ((locals.map List.length).take i).sum) ∧
    (customReduction op locals (some 1)).1 = .ok locals.flatten ∧
    collect_data locals = locals.flatten := by
  have hjoin : allgatherv locals (exscanFrom 0 (locals.map List.length))
      (List.replicate (locals.map List.length).sum 0) = locals.flatten := by
    have key := allgatherv_exscanFrom locals []
      (List.replicate (locals.map List.length).sum (0 : Int)) (by simp)
    simpa using key
  refine ⟨?_, ?_, ?_⟩
  · intro i hi
    rw [gatherDisplacements_eq_exscanFrom,
        exscanFrom_getD _ 0 i (by simpa using hi)]
    omega
  · simp only [customReduction]
    rw [if_neg (by simp), if_pos trivial]
    simp only [gatherDisplacements_eq_exscanFrom]
    rw [hjoin]
  · simp only [collect_data]
    rw [gatherDisplacements_eq_exscanFrom, hjoin]

/-- Witness for C4 at two ranks with row counts 2 and 1. -/
theorem gather_rank_order_witness :
    (∀ i, i < ([[1, 2], [3]] : List (List Int)).length →
      (gatherDisplacements (([[1, 2], [3]] : List (List Int)).map
        List.length)).getD i 0 =
        ((([[1, 2], [3]] : List (List Int)).map List.length).take i).sum) ∧
    (customReduction (· + ·) [[1, 2], [3]] (some 1)).1 =
      .ok ([[1, 2], [3]] : List (List Int)).flatten ∧
    collect_data [[1, 2], [3]] = ([[1, 2], [3]] : List (List Int)).flatten :=
  gather_rank_order (· + ·) [[1, 2], [3]]

/-- C9: `custom_reduction` is total only for `axis ∈ {None, 0, 1}`; for
any other axis neither conditional branch assigns the result variable,
so the call fails with an uncaught `UnboundLocalError` (not a
parameter-validation error), with an empty collective trace — the
Exscan/Allreduce/Allgather collectives of the `axis == 1` branch are
all skipped. -/
theorem custom_reduction_axis_totality (op : Int → Int → Int)
    (locals : List (List Int)) (a : Int) (h0 : a ≠ 0) (h1 : a ≠ 1) :
    customReduction op locals (some a) = (.error .unboundLocal, []) ∧
    (∃ v, (customReduction op locals none).1 = .ok v) ∧
    (∃ v, (customReduction op locals (some 0)).1 = .ok v) ∧
    (∃ v, (customReduction op locals (some 1)).1 = .ok v) := by
  refine ⟨?_, ⟨_, rfl⟩, ⟨_, rfl⟩, ⟨_, rfl⟩⟩
  unfold customReduction
  rw [if_neg (by simp [h0]), if_neg (by simp [h1])]

/-- Witness for C9 at `axis = 2` with two ranks. -/
theorem custom_reduction_axis_totality_witness :
    customReduction (· + ·) [[1], [2, 3]] (some 2) =
      (.error .unboundLocal, []) ∧
    (∃ v, (customReduction (· + ·) [[1], [2, 3]] none).1 = .ok v) ∧
    (∃ v, (customReduction (· + ·) [[1], [2, 3]] (some 0)).1 = .ok v) ∧
    (∃ v, (customReduction (· + ·) [[1], [2, 3]] (some 1)).1 = .ok v) :=
  custom_reduction_axis_totality (· + ·) [[1], [2, 3]] 2 (by decide)
    (by decide)

end Mpids
